import Mathlib

/-!
Verification development for the fintech review-analytics pipeline
(scripts/scrape_reviews.py, clean_reviews.py, sentiment_analysis.py,
topic_modeling.py, run_task2_analysis.py, insert_into_postgres.py).

The pandas dataframe is embedded as a list of rows, each row an
association list from column name to value, together with an ordered
column list.  External libraries (VADER, TextBlob, Afinn, the WordNet
lemmatizer, gensim phrase/LDA models, pandas date parsing, the Google
Play API, psycopg2) appear as explicit function parameters or oracles;
every piece of control flow and data transformation written in the
repository itself is translated directly from the Python source.
-/

namespace Week2

/-- A pandas cell value: a string, a rational number, an integer, a list
of string tokens (for the `tokens` columns of `topic_modeling.py`), or
the pandas null (`NaN` / `None`). -/
inductive Val where
  | null : Val
  | str : String → Val
  | num : ℚ → Val
  | int : ℤ → Val
  | strList : List String → Val
deriving DecidableEq, Repr

/-- A dataframe row: an association list from column name to value. -/
abbrev Row := List (String × Val)

/-- A dataframe: ordered column labels plus rows. -/
structure DF where
  cols : List String
  rows : List Row
deriving DecidableEq, Repr

/-- Read column `c` of a row (`row[c]` in pandas; all reads in the
scripts are of columns that are present, so the default for an absent
binding is the pandas null). -/
def getV (r : Row) (c : String) : Val :=
  match r.lookup c with
  | some v => v
  | none => Val.null

/-- Set column `c` of a row to `v`, replacing an existing binding in
place or appending a new one at the end. -/
def setV (r : Row) (c : String) (v : Val) : Row :=
  match r with
  | [] => [(c, v)]
  | (c0, v0) :: t => if c0 = c then (c, v) :: t else (c0, v0) :: setV t c v

/-- `df[c] = df.apply(f)`: assign column `c` from a per-row function,
appending the label to the column list when it is new. -/
def setCol (df : DF) (c : String) (f : Row → Val) : DF :=
  { cols := if c ∈ df.cols then df.cols else df.cols ++ [c],
    rows := df.rows.map (fun r => setV r c (f r)) }

/-- `df[df.apply(p)]`: keep only the rows satisfying `p`. -/
def filterRows (df : DF) (p : Row → Bool) : DF :=
  { cols := df.cols, rows := df.rows.filter p }

/-- Remove a binding from a row. -/
def delV (r : Row) (c : String) : Row :=
  r.filter (fun kv => kv.1 ≠ c)

/-- `df.drop(c, axis=1)`: remove a column. -/
def dropCol (df : DF) (c : String) : DF :=
  { cols := df.cols.filter (fun c0 => c0 ≠ c),
    rows := df.rows.map (fun r => delV r c) }

/-- `df[[c1, ..., ck]]`: project onto the listed columns, in order. -/
def selectCols (df : DF) (cs : List String) : DF :=
  { cols := cs, rows := df.rows.map (fun r => cs.map (fun c => (c, getV r c))) }

/-- Rename columns through a mapping (`df.rename(columns=m)`). -/
def renameCols (df : DF) (m : String → String) : DF :=
  { cols := df.cols.map m,
    rows := df.rows.map (fun r => r.map (fun kv => (m kv.1, kv.2))) }

/-!
## scripts/sentiment_analysis.py
-/

/-- `str(text)` for the cell values that can reach a text branch.  The
review column of the cleaned CSV holds strings or null, so the numeric
renderings are inert defaults. -/
def pyStrVal : Val → String
  | Val.str s => s
  | Val.null => "nan"
  | Val.num q => toString q
  | Val.int z => toString z
  | Val.strList _ => ""

/-- `get_vader_scores` from `apply_vader_sentiment`: null or empty text
scores 0.0, otherwise the VADER compound score of the text.  The VADER
analyzer itself is the external parameter `analyzer`. -/
def getVaderScores (analyzer : String → ℚ) (text : Val) : ℚ :=
  match text with
  | Val.null => 0
  | Val.str s => if s = "" then 0 else analyzer s
  | v => analyzer (pyStrVal v)

/-- `get_textblob_scores` from `apply_textblob_sentiment`: null or empty
text scores (0.0, 0.0), otherwise TextBlob's (polarity, subjectivity).
The TextBlob model is the external parameter `blob`. -/
def getTextblobScores (blob : String → ℚ × ℚ) (text : Val) : ℚ × ℚ :=
  match text with
  | Val.null => (0, 0)
  | Val.str s => if s = "" then (0, 0) else blob s
  | v => blob (pyStrVal v)

/-- `get_afinn_score` from `apply_afinn_sentiment`: null or empty text
scores 0.0, otherwise the Afinn lexicon score. -/
def getAfinnScore (afinn : String → ℚ) (text : Val) : ℚ :=
  match text with
  | Val.null => 0
  | Val.str s => if s = "" then 0 else afinn s
  | v => afinn (pyStrVal v)

/-- `apply_vader_sentiment`: `df['vader_compound'] = df['review'].apply(get_vader_scores)`. -/
def applyVaderSentiment (analyzer : String → ℚ) (df : DF) : DF :=
  setCol df "vader_compound" (fun r => Val.num (getVaderScores analyzer (getV r "review")))

/-- `apply_textblob_sentiment`: the tuple column is split into
`textblob_polarity` and `textblob_subjectivity`. -/
def applyTextblobSentiment (blob : String → ℚ × ℚ) (df : DF) : DF :=
  let df1 := setCol df "textblob_polarity"
    (fun r => Val.num (getTextblobScores blob (getV r "review")).1)
  setCol df1 "textblob_subjectivity"
    (fun r => Val.num (getTextblobScores blob (getV r "review")).2)

/-- `apply_afinn_sentiment`: `df['afinn_score'] = df['review'].apply(get_afinn_score)`. -/
def applyAfinnSentiment (afinn : String → ℚ) (df : DF) : DF :=
  setCol df "afinn_score" (fun r => Val.num (getAfinnScore afinn (getV r "review")))

/-- `compute_aggregated_insights`: every aggregation only prints; the
one dataframe mutation is `df['month'] = pd.to_datetime(df['date']).dt.to_period('M')`,
with pandas date parsing as the external parameter `monthOf`. -/
def computeAggregatedInsights (monthOf : Val → Val) (df : DF) : DF :=
  setCol df "month" (fun r => monthOf (getV r "date"))

/-- `pd.cut(x, bins=[-1, -0.05, 0.05, 1], labels=['Negative','Neutral','Positive'])`
on a single value: half-open bins `(-1, -0.05]`, `(-0.05, 0.05]`, `(0.05, 1]`,
null outside them (pandas puts values outside the bins, the left edge
-1 included, into no category). -/
def sentimentCategoryOf (v : Val) : Val :=
  match v with
  | Val.num q =>
      if q ≤ -1 then Val.null
      else if q ≤ -1/20 then Val.str "Negative"
      else if q ≤ 1/20 then Val.str "Neutral"
      else if q ≤ 1 then Val.str "Positive"
      else Val.null
  | _ => Val.null

/-- `generate_summary_statistics`: all statistics only print; the one
dataframe mutation is `df['sentiment_category'] = pd.cut(df['vader_compound'], ...)`. -/
def generateSummaryStatistics (df : DF) : DF :=
  setCol df "sentiment_category" (fun r => sentimentCategoryOf (getV r "vader_compound"))

/-- `save_results`: drop the temporary `month` column when present, then
write the CSV (the written dataframe is the returned value). -/
def saveResults (df : DF) : DF :=
  if "month" ∈ df.cols then dropCol df "month" else df

/-- `main` of `sentiment_analysis.py`, from the loaded dataframe to the
dataframe written to `sentiment_results.csv`. -/
def sentimentMain (analyzer : String → ℚ) (blob : String → ℚ × ℚ)
    (afinn : String → ℚ) (monthOf : Val → Val) (df : DF) : DF :=
  saveResults
    (generateSummaryStatistics
      (computeAggregatedInsights monthOf
        (applyAfinnSentiment afinn
          (applyTextblobSentiment blob
            (applyVaderSentiment analyzer df)))))

/-!
## scripts/clean_reviews.py
-/

/-- Python's `\s` on the character classes reachable here (the reviews
are scraped English text): space, tab, newline, carriage return,
vertical tab, form feed. -/
def pyIsSpace (c : Char) : Bool :=
  c = ' ' ∨ c = '\t' ∨ c = '\n' ∨ c = '\r' ∨ c = '\x0b' ∨ c = '\x0c'

/-- `str.strip()`: drop leading and trailing whitespace. -/
def pyStrip (l : List Char) : List Char :=
  ((l.dropWhile pyIsSpace).reverse.dropWhile pyIsSpace).reverse

/-- `re.sub(r'\s+', ' ', text)`, fuelled scanner (every step consumes at
least one character, so fuel `l.length` always suffices): replace every
maximal whitespace run with a single space. -/
def collapseWsF : ℕ → List Char → List Char
  | 0, l => l
  | _, [] => []
  | fuel + 1, c :: t =>
    if pyIsSpace c then ' ' :: collapseWsF fuel (t.dropWhile pyIsSpace)
    else c :: collapseWsF fuel t

/-- `re.sub(r'\s+', ' ', text)`. -/
def collapseWs (l : List Char) : List Char :=
  collapseWsF l.length l

/-- `re.sub(r'[^\x20-\x7E\n]', '', text)`: delete every character that
is neither printable ASCII nor a newline. -/
def keepPrintable (l : List Char) : List Char :=
  l.filter (fun c => (' ' ≤ c ∧ c ≤ '~') ∨ c = '\n')

/-- `clean_review_text`: null becomes the empty string; otherwise strip,
collapse whitespace, and remove non-printable characters, in that
order. -/
def cleanReviewText (v : Val) : String :=
  match v with
  | Val.null => ""
  | v => String.mk (keepPrintable (collapseWs (pyStrip (pyStrVal v).data)))

/-- The dedup key of `drop_duplicates(subset=['review_text', 'bank_name'])`. -/
def dupKey (r : Row) : Val × Val :=
  (getV r "review_text", getV r "bank_name")

/-- `drop_duplicates(..., keep='first')`: keep a row iff no earlier row
has the same key. -/
def dedupKeepFirst (seen : List (Val × Val)) : List Row → List Row
  | [] => []
  | r :: t =>
    if dupKey r ∈ seen then dedupKeepFirst seen t
    else r :: dedupKeepFirst (dupKey r :: seen) t

/-- `remove_duplicates`: deduplicate on raw `(review_text, bank_name)`. -/
def removeDuplicates (df : DF) : DF :=
  { cols := df.cols, rows := dedupKeepFirst [] df.rows }

/-- The numeric content of a rating cell (`NaN` and non-numeric cells
give none, matching pandas `skipna`). -/
def ratingNum (v : Val) : Option ℚ :=
  match v with
  | Val.num q => some q
  | Val.int z => some (z : ℚ)
  | _ => none

/-- `Series.median()` with `skipna=True`: the middle of the sorted
values, or the mean of the two middles; `none` on an all-null column
(pandas returns NaN there, and `fillna(NaN)` then changes nothing). -/
def medianQ (l : List ℚ) : Option ℚ :=
  if l.length = 0 then none
  else
    let s := l.mergeSort (· ≤ ·)
    if l.length % 2 = 1 then some (s.getD (l.length / 2) 0)
    else some ((s.getD (l.length / 2 - 1) 0 + s.getD (l.length / 2) 0) / 2)

/-- `handle_missing_values`: drop rows with null `review_text`, fill
null ratings with the median rating when any are null, drop rows with
null `date`. -/
def handleMissingValues (df : DF) : DF :=
  let df1 := filterRows df (fun r => getV r "review_text" ≠ Val.null)
  let nullRatings := df1.rows.filter (fun r => getV r "rating" = Val.null)
  let df2 :=
    if nullRatings.length > 0 then
      let vals := df1.rows.filterMap (fun r => ratingNum (getV r "rating"))
      let fill := match medianQ vals with
        | some m => Val.num m
        | none => Val.null
      { cols := df1.cols,
        rows := df1.rows.map (fun r =>
          if getV r "rating" = Val.null then setV r "rating" fill else r) }
    else df1
  filterRows df2 (fun r => getV r "date" ≠ Val.null)

/-- `parse_date` of `normalize_dates`: null gives `None`; otherwise the
`pd.to_datetime`/`strftime('%Y-%m-%d')` round trip, which is the
external parameter `dateNorm` (`none` models the `except` branch). -/
def parseDateCR (dateNorm : Val → Option String) (v : Val) : Option String :=
  match v with
  | Val.null => none
  | v => dateNorm v

/-- `normalize_dates`: rewrite the `date` column through `parse_date`
and drop the rows where parsing failed. -/
def normalizeDates (dateNorm : Val → Option String) (df : DF) : DF :=
  let df1 := setCol df "date" (fun r =>
    match parseDateCR dateNorm (getV r "date") with
    | some s => Val.str s
    | none => Val.null)
  filterRows df1 (fun r => getV r "date" ≠ Val.null)

/-- `clean_text` of `clean_reviews.py`: clean every `review_text` cell
and drop the rows whose cleaned text is empty. -/
def cleanTextStep (df : DF) : DF :=
  let df1 := setCol df "review_text" (fun r => Val.str (cleanReviewText (getV r "review_text")))
  filterRows df1 (fun r =>
    match getV r "review_text" with
    | Val.str s => s.length > 0
    | _ => false)

/-- The column mapping of `standardize_schema`. -/
def schemaRename (c : String) : String :=
  if c = "review_text" then "review" else if c = "bank_name" then "bank" else c

/-- `standardize_schema`: rename to the final schema and fix the column
order. -/
def standardizeSchema (df : DF) : DF :=
  selectCols (renameCols df schemaRename) ["review", "rating", "date", "bank", "source"]

/-- The duplicate count of `validate_data`
(`df.duplicated(subset=['review','bank']).sum()`): rows with an earlier
row of the same key. -/
def dupAfterClean (rows : List Row) : Nat :=
  (List.range rows.length).countP (fun j =>
    decide (∃ i < j, (rows.getD i []).lookup "review" = (rows.getD j []).lookup "review" ∧
      (rows.getD i []).lookup "bank" = (rows.getD j []).lookup "bank"))

/-- `(df['rating'] < 1) | (df['rating'] > 5)` on one cell; pandas
comparisons with NaN are false, so null ratings are not flagged. -/
def ratingInvalid (v : Val) : Bool :=
  match ratingNum v with
  | some q => q < 1 ∨ q > 5
  | none => false

/-- `validate_data`: true iff no issue is reported (duplicates on
`(review, bank)`, ratings outside 1..5, missing values, empty reviews).
It only reports; it never modifies the dataframe. -/
def validateData (df : DF) : Bool :=
  dupAfterClean df.rows = 0 ∧
  df.rows.all (fun r => ¬ratingInvalid (getV r "rating")) ∧
  df.rows.all (fun r => df.cols.all (fun c => getV r c ≠ Val.null)) ∧
  df.rows.all (fun r =>
    match getV r "review" with
    | Val.str s => s.length ≠ 0
    | _ => true)

/-- `main` of `clean_reviews.py`, from the loaded raw dataframe to the
dataframe written to `bank_reviews_clean.csv`.  The CSV is written
regardless of the result of `validate_data`. -/
def cleanMain (dateNorm : Val → Option String) (df : DF) : DF :=
  standardizeSchema
    (cleanTextStep
      (normalizeDates dateNorm
        (handleMissingValues
          (removeDuplicates df))))

/-!
## scripts/topic_modeling.py
-/

/-- `re.sub(r'http\S+|www\S+', '', text)`: scanning left to right, a
literal `http` (or `www`) followed by at least one non-space character
matches through the end of the non-space run and is deleted; scanning
resumes after the match. -/
def subUrlsF : ℕ → List Char → List Char
  | 0, l => l
  | _, [] => []
  | fuel + 1, c :: t =>
    if (c :: t).take 4 = ['h', 't', 't', 'p'] ∧
        ¬pyIsSpace (((c :: t).drop 4).headD ' ') then
      subUrlsF fuel (((c :: t).drop 4).dropWhile (fun d => ¬pyIsSpace d))
    else if (c :: t).take 3 = ['w', 'w', 'w'] ∧
        ¬pyIsSpace (((c :: t).drop 3).headD ' ') then
      subUrlsF fuel (((c :: t).drop 3).dropWhile (fun d => ¬pyIsSpace d))
    else
      c :: subUrlsF fuel t

/-- `re.sub(r'http\S+|www\S+', '', text)` (every scanner step consumes
at least one character, so fuel `l.length` always suffices). -/
def subUrls (l : List Char) : List Char :=
  subUrlsF l.length l

/-- `re.sub(r'\S+@\S+', '', text)`: a maximal non-space run is deleted
exactly when it contains an `@` with at least one non-space character
on each side (the leftmost match then starts at the run's start and the
greedy `\S+` extends it to the run's end). -/
def subEmailsF : ℕ → List Char → List Char
  | 0, l => l
  | _, [] => []
  | fuel + 1, c :: t =>
    if pyIsSpace c then c :: subEmailsF fuel t
    else
      let w := (c :: t).takeWhile (fun d => ¬pyIsSpace d)
      (if '@' ∈ (w.drop 1).dropLast then [] else w) ++
        subEmailsF fuel ((c :: t).dropWhile (fun d => ¬pyIsSpace d))

/-- `re.sub(r'\S+@\S+', '', text)` (fuel `l.length` always suffices). -/
def subEmails (l : List Char) : List Char :=
  subEmailsF l.length l

/-- `re.sub(r'[^a-z\s]', ' ', text)`: keep lowercase letters and
whitespace, replace every other character with a space. -/
def azSub (l : List Char) : List Char :=
  l.map (fun c => if ('a' ≤ c ∧ c ≤ 'z') ∨ pyIsSpace c then c else ' ')

/-- `word_tokenize` as it is reachable in `clean_text` of
`topic_modeling.py`: its input has already passed `azSub`, so it
consists only of lowercase letters and whitespace, on which Treebank
tokenization coincides with whitespace splitting (producing the maximal
non-space runs, no empty tokens). -/
def wsTokenizeF : ℕ → List Char → List (List Char)
  | 0, _ => []
  | _, [] => []
  | fuel + 1, c :: t =>
    if pyIsSpace c then wsTokenizeF fuel t
    else ((c :: t).takeWhile (fun d => ¬pyIsSpace d)) ::
      wsTokenizeF fuel ((c :: t).dropWhile (fun d => ¬pyIsSpace d))

/-- The maximal non-space runs of a character list (fuel `l.length`
always suffices). -/
def wsTokenize (l : List Char) : List (List Char) :=
  wsTokenizeF l.length l

/-- The whitespace tokens of a character list, as strings. -/
def wsSplit (l : List Char) : List String :=
  (wsTokenize l).map (fun w => String.mk w)

/-- `stopwords.words('english')`: the NLTK English stopword list. -/
def nltkStopwords : List String :=
  ["i", "me", "my", "myself", "we", "our", "ours", "ourselves", "you",
   "you\x27re", "you\x27ve", "you\x27ll", "you\x27d", "your", "yours",
   "yourself", "yourselves", "he", "him", "his", "himself", "she",
   "she\x27s", "her", "hers", "herself", "it", "it\x27s", "its", "itself",
   "they", "them", "their", "theirs", "themselves", "what", "which",
   "who", "whom", "this", "that", "that\x27ll", "these", "those", "am",
   "is", "are", "was", "were", "be", "been", "being", "have", "has",
   "had", "having", "do", "does", "did", "doing", "a", "an", "the",
   "and", "but", "if", "or", "because", "as", "until", "while", "of",
   "at", "by", "for", "with", "about", "against", "between", "into",
   "through", "during", "before", "after", "above", "below", "to",
   "from", "up", "down", "in", "out", "on", "off", "over", "under",
   "again", "further", "then", "once", "here", "there", "when", "where",
   "why", "how", "all", "any", "both", "each", "few", "more", "most",
   "other", "some", "such", "no", "nor", "not", "only", "own", "same",
   "so", "than", "too", "very", "s", "t", "can", "will", "just", "don",
   "don\x27t", "should", "should\x27ve", "now", "d", "ll", "m", "o",
   "re", "ve", "y", "ain", "aren", "aren\x27t", "couldn", "couldn\x27t",
   "didn", "didn\x27t", "doesn", "doesn\x27t", "hadn", "hadn\x27t",
   "hasn", "hasn\x27t", "haven", "haven\x27t", "isn", "isn\x27t", "ma",
   "mightn", "mightn\x27t", "mustn", "mustn\x27t", "needn", "needn\x27t",
   "shan", "shan\x27t", "shouldn", "shouldn\x27t", "wasn", "wasn\x27t",
   "weren", "weren\x27t", "won", "won\x27t", "wouldn", "wouldn\x27t"]

/-- The custom app-review stopwords added in `preprocess_text`. -/
def customStopwords : List String :=
  ["app", "bank", "banking", "mobile", "application", "apps",
   "use", "using", "used", "one", "get", "make", "also", "would",
   "could", "even", "really", "much", "well", "good", "bad"]

/-- `stop_words`: the NLTK English list extended with the custom set. -/
def stopWordsAll : List String :=
  nltkStopwords ++ customStopwords

/-- `clean_text` of `preprocess_text` in `topic_modeling.py`: null gives
`[]`; otherwise lowercase, remove URLs and e-mail addresses, keep only
letters and whitespace, tokenize, drop stopwords and words shorter than
3 characters, and finally lemmatize each surviving word.  The WordNet
lemmatizer is the external parameter `lemmatize`. -/
def cleanTextTM (lemmatize : String → String) (text : Val) : List String :=
  match text with
  | Val.null => []
  | v =>
    let t1 := (pyStrVal v).data.map Char.toLower
    let t4 := azSub (subEmails (subUrls t1))
    let kept := (wsSplit t4).filter (fun w => w ∉ stopWordsAll ∧ w.length ≥ 3)
    kept.map lemmatize

/-- The token list held in a `tokens` cell. -/
def valTokens : Val → List String
  | Val.strList l => l
  | _ => []

/-- `preprocess_text`: compute the `tokens` column from `review` and
drop the rows whose token list is empty. -/
def preprocessText (lemmatize : String → String) (df : DF) : DF :=
  let df1 := setCol df "tokens" (fun r =>
    Val.strList (cleanTextTM lemmatize (getV r "review")))
  filterRows df1 (fun r => (valTokens (getV r "tokens")).length > 0)

/-- `create_bigrams_trigrams`, dataframe part:
`df['tokens_with_phrases'] = df['tokens'].apply(lambda x: trigram_mod[bigram_mod[x]])`;
the trained gensim phrase models are the external parameter `phraser`.
The bigram/trigram counters only feed the printed report. -/
def createBigramsTrigrams (phraser : List String → List String) (df : DF) : DF :=
  setCol df "tokens_with_phrases" (fun r =>
    Val.strList (phraser (valTokens (getV r "tokens"))))

/-- `extract_tfidf_keywords`, dataframe part:
`df['processed_text'] = df['tokens_with_phrases'].apply(' '.join)`;
the TF-IDF fit itself returns keyword lists without touching `df`. -/
def extractTfidfProcessed (df : DF) : DF :=
  setCol df "processed_text" (fun r =>
    Val.str (String.intercalate " " (valTokens (getV r "tokens_with_phrases"))))

/-- Python's `max(dist, key=lambda x: x[1])` starting from a first
element: the first element whose key is maximal (later elements replace
the current best only on a strictly larger key). -/
def pyMaxBySnd (h : ℕ × ℚ) (t : List (ℕ × ℚ)) : ℕ × ℚ :=
  t.foldl (fun best x => if best.2 < x.2 then x else best) h

/-- The topic assignment of one document in `perform_lda_topic_modeling`:
the id of the dominant topic of the distribution, `-1` when the
distribution is empty. -/
def ldaAssignTopic (dist : List (ℕ × ℚ)) : ℤ :=
  match dist with
  | [] => -1
  | h :: t => ((pyMaxBySnd h t).1 : ℤ)

/-- `perform_lda_topic_modeling`, dataframe part: `df['lda_topic']` is
the per-document dominant-topic assignment.  `docTopics` is the external
composition of `dictionary.doc2bow` and `lda_model.get_document_topics`
for the trained model; the Python code builds the assignment list by
iterating the corpus (itself a map over `df['tokens_with_phrases']`) and
assigns it positionally, which is the same per-row map. -/
def performLdaTopicModeling (docTopics : List String → List (ℕ × ℚ)) (df : DF) : DF :=
  setCol df "lda_topic" (fun r =>
    Val.int (ldaAssignTopic (docTopics (valTokens (getV r "tokens_with_phrases")))))

/-- `perform_nmf_topic_modeling`, dataframe part: it recomputes
`df['processed_text']` from `tokens_with_phrases` (the NMF fit itself
does not touch `df`). -/
def performNmfProcessed (df : DF) : DF :=
  setCol df "processed_text" (fun r =>
    Val.str (String.intercalate " " (valTokens (getV r "tokens_with_phrases"))))

/-- `save_lda_assignments`: the dataframe written to `lda_topics.csv`. -/
def saveLdaAssignments (df : DF) : DF :=
  selectCols df ["review", "bank", "rating", "lda_topic"]

/-- `main` of `topic_modeling.py`, from the loaded sentiment-results
dataframe to the dataframe written to `lda_topics.csv`. -/
def topicMain (lemmatize : String → String) (phraser : List String → List String)
    (docTopics : List String → List (ℕ × ℚ)) (df : DF) : DF :=
  saveLdaAssignments
    (performNmfProcessed
      (performLdaTopicModeling docTopics
        (extractTfidfProcessed
          (createBigramsTrigrams phraser
            (preprocessText lemmatize df)))))

/-- A word is made only of lowercase letters `a`-`z`. -/
def azOnly (w : String) : Bool :=
  w.data.all (fun c => 'a' ≤ c ∧ c ≤ 'z')

/-- Models `WordNetLemmatizer().lemmatize` on the sample words used in
the concrete runs of this file: the regular plural `banks` has the
WordNet noun lemma `bank`; the remaining sample words (`slow`,
`transfer`, `crash`) are their own lemmas. -/
def wordnetLemmaSample (w : String) : String :=
  if w = "banks" then "bank" else w

/-!
## scripts/run_task2_analysis.py
-/

/-- The four Task-2 modules, in the order `main` runs them. -/
inductive Mod where
  | sentiment : Mod
  | topics : Mod
  | viz : Mod
  | report : Mod
deriving DecidableEq, Repr

/-- Outcome of the orchestrator: the modules `run_module` was called on,
in order, and the `sys.exit` code (`none` when `main` returns normally). -/
structure RunOutcome where
  executed : List Mod
  exitCode : Option Nat
deriving DecidableEq, Repr

/-- `main` of `run_task2_analysis.py`.  `prereq` is the result of
`check_prerequisites`; `ok m` tells whether module `m`'s `main()` runs
without raising (the value `run_module` returns). -/
def task2Main (prereq : Bool) (ok : Mod → Bool) : RunOutcome :=
  if ¬prereq then { executed := [], exitCode := some 1 }
  else if ¬ok Mod.sentiment then
    { executed := [Mod.sentiment], exitCode := some 1 }
  else if ¬ok Mod.topics then
    { executed := [Mod.sentiment, Mod.topics], exitCode := some 1 }
  else
    { executed := [Mod.sentiment, Mod.topics, Mod.viz, Mod.report],
      exitCode := none }

/-!
## scripts/scrape_reviews.py
-/

/-- One response of the `google_play_scraper.reviews` API: either the
call raised, or it returned a batch of reviews (modelled by opaque
numeric payloads) with an optional continuation token. -/
inductive ApiResp where
  | err : ApiResp
  | ok (batch : List ℕ) (tok : Option ℕ) : ApiResp

/-- The batch loop of `scrape_app_reviews`.  `api i req` is the response
of the `i`-th API call when `req` reviews are requested; `acc` is
`all_reviews` so far.  Returns the collected reviews together with the
list of `count=` arguments passed to the API, one per call made.  The
loop body: request `min(200, count - len(all_reviews))`; a raised
exception or an empty batch breaks; otherwise extend and continue while
a continuation token is present. -/
def scrapeLoop (api : ℕ → ℕ → ApiResp) (target : ℕ) (acc : List ℕ) (i : ℕ) :
    List ℕ × List ℕ :=
  if h : acc.length < target then
    let req := min 200 (target - acc.length)
    match api i req with
    | ApiResp.err => (acc, [req])
    | ApiResp.ok batch tok =>
      if hb : batch.isEmpty then (acc, [req])
      else
        match tok with
        | none => (acc ++ batch, [req])
        | some _ =>
          let next := scrapeLoop api target (acc ++ batch) (i + 1)
          (next.1, req :: next.2)
  else (acc, [])
termination_by target - acc.length
decreasing_by
  have hb' : batch ≠ [] := by simpa using hb
  have hpos : 0 < batch.length := List.length_pos.mpr hb'
  simp only [List.length_append]
  omega

/-- `scrape_app_reviews`, collection part: run the batch loop from an
empty list (`continuation_token=None` is call index 0). -/
def scrapeAppReviews (api : ℕ → ℕ → ApiResp) (target : ℕ) : List ℕ × List ℕ :=
  scrapeLoop api target [] 0

/-!
## scripts/insert_into_postgres.py
-/

/-- A review tuple as prepared by `insert_reviews`
(`bank_id, review_text, rating, review_date, sentiment_label,
sentiment_score, source`). -/
structure ReviewTuple where
  bankId : ℤ
  reviewText : Val
  rating : ℤ
  reviewDate : String
  sentimentLabel : Val
  sentimentScore : Val
  source : Val
deriving DecidableEq, Repr

/-- A write executed against the database. -/
inductive DbOp where
  | insertBank (bankName appName : Val) : DbOp
  | insertReview (t : ReviewTuple) : DbOp
deriving DecidableEq, Repr

/-- The PostgreSQL connection state: the committed database content and
the writes pending in the open transaction.  `cursor.execute` appends to
`pending`, `conn.commit` moves `pending` into `committed`, and
`conn.rollback` discards `pending`. -/
structure PgState where
  committed : List DbOp
  pending : List DbOp
deriving DecidableEq, Repr

/-- Connection events, for counting commits and rollbacks. -/
inductive Ev where
  | exec : Ev
  | commit : Ev
  | rollback : Ev
deriving DecidableEq, Repr

/-- Helper of `uniqueVals`: drop the values seen before. -/
def uniqueValsGo (seen : List Val) : List Val → List Val
  | [] => []
  | v :: t =>
    if v ∈ seen then uniqueValsGo seen t
    else v :: uniqueValsGo (v :: seen) t

/-- First-occurrence deduplication, as `pandas.Series.unique`. -/
def uniqueVals (l : List Val) : List Val :=
  uniqueValsGo [] l

/-- `df['bank'].unique()`. -/
def uniqueBanks (df : DF) : List Val :=
  uniqueVals (df.rows.map (fun r => getV r "bank"))

/-- The loop of `insert_banks` followed by its single `conn.commit()`.
`err i` tells whether the `i`-th `cursor.execute` raises
`psycopg2.Error`; `ids b` is the `bank_id` the `RETURNING` clause
produces for bank `b`.  A raised error rolls the transaction back and
re-raises (`Except.error`). -/
def insertBanksGo (err : ℕ → Bool) (ids : Val → ℤ) (banks : List Val)
    (st : PgState) (i : ℕ) (mapping : List (Val × ℤ)) :
    PgState × List Ev × Except Unit (List (Val × ℤ)) :=
  match banks with
  | [] =>
    ({ committed := st.committed ++ st.pending, pending := [] },
     [Ev.commit], Except.ok mapping)
  | b :: rest =>
    if err i then
      ({ committed := st.committed, pending := [] },
       [Ev.rollback], Except.error ())
    else
      let st1 : PgState :=
        { committed := st.committed, pending := st.pending ++ [DbOp.insertBank b b] }
      let next := insertBanksGo err ids rest st1 (i + 1) (mapping ++ [(b, ids b)])
      (next.1, Ev.exec :: next.2.1, next.2.2)

/-- `PostgreSQLInserter.insert_banks`. -/
def insertBanks (err : ℕ → Bool) (ids : Val → ℤ) (df : DF) (st : PgState) :
    PgState × List Ev × Except Unit (List (Val × ℤ)) :=
  insertBanksGo err ids (uniqueBanks df) st 0 []

/-- `int(row['rating'])`: Python `int()` truncates toward zero (the
cleaned CSV holds numeric ratings; `int()` of anything else raises and
is unreachable here). -/
def pyIntVal : Val → ℤ
  | Val.num q => q.num / (q.den : ℤ)
  | Val.int z => z
  | _ => 0

/-- The preparation loop of `insert_reviews`: a review whose bank is
missing from the mapping is skipped (after a printed warning); a review
date that fails `pd.to_datetime` (`parseD` gives `none`) is replaced by
`datetime.now().date()` (`nowDate`). -/
def prepReviewData (bankMapping : List (Val × ℤ)) (parseD : Val → Option String)
    (nowDate : String) (rows : List Row) : List ReviewTuple :=
  rows.filterMap (fun r =>
    match bankMapping.lookup (getV r "bank") with
    | none => none
    | some bid => some
        { bankId := bid,
          reviewText := getV r "review",
          rating := pyIntVal (getV r "rating"),
          reviewDate := (parseD (getV r "date")).getD nowDate,
          sentimentLabel := Val.null,
          sentimentScore := Val.null,
          source := getV r "source" })

/-- `PostgreSQLInserter.insert_reviews`: prepare the tuples, batch-insert
them, commit once; a `psycopg2.Error` from the batch insert rolls back
and re-raises.  On success the returned value is `len(review_data)`. -/
def insertReviews (err : Bool) (bankMapping : List (Val × ℤ))
    (parseD : Val → Option String) (nowDate : String) (df : DF) (st : PgState) :
    PgState × List Ev × Except Unit ℕ :=
  let data := prepReviewData bankMapping parseD nowDate df.rows
  if err then
    ({ committed := st.committed, pending := [] }, [Ev.exec, Ev.rollback], Except.error ())
  else
    ({ committed := st.committed ++ st.pending ++ data.map DbOp.insertReview,
       pending := [] },
     [Ev.exec, Ev.commit], Except.ok data.length)

/-- A concrete module-success assignment in which only the
visualization module raises. -/
def okSample : Mod → Bool :=
  fun m => !(m = Mod.viz)

/-!
## Concrete sample inputs for the witnesses and counterexamples
-/

/-- A concrete API behaviour: every call succeeds, returns three
reviews (or fewer when fewer are requested) and always offers a
continuation token. -/
def apiSample : ℕ → ℕ → ApiResp :=
  fun _ req => ApiResp.ok (List.range (min req 3)) (some 0)

/-- An error oracle under which every `cursor.execute` raises. -/
def errAll : ℕ → Bool := fun _ => true

/-- A one-row dataframe holding a single bank. -/
def dfBank1 : DF :=
  { cols := ["bank"], rows := [[("bank", Val.str "CBE")]] }

/-- The empty database state. -/
def stEmpty : PgState := { committed := [], pending := [] }

/-- A date parser that fails on every input (every `pd.to_datetime`
call raises). -/
def parseDNone : Val → Option String := fun _ => none

/-- A two-row dataframe: a review of a known bank with an unparseable
date, and a review of a bank absent from the mapping. -/
def dfReviews2 : DF :=
  { cols := ["review", "rating", "date", "bank", "source"],
    rows := [
      [("review", Val.str "slow app"), ("rating", Val.num 2),
       ("date", Val.str "not-a-date"), ("bank", Val.str "CBE"),
       ("source", Val.str "google_play")],
      [("review", Val.str "fine"), ("rating", Val.num 4),
       ("date", Val.str "2024-01-01"), ("bank", Val.str "Unknown"),
       ("source", Val.str "google_play")]] }

/-- A concrete document-topic model: every document gets the
distribution [(0, 1), (3, 4), (2, 4)] (unnormalized weights). -/
def docTopicsSample : List String → List (ℕ × ℚ) :=
  fun _ => [(0, 1), (3, 4), (2, 4)]

/-- A one-row dataframe carrying a phrase-token list. -/
def dfTokens1 : DF :=
  { cols := ["tokens_with_phrases"],
    rows := [[("tokens_with_phrases", Val.strList ["slow"])]] }

/-- A dataframe with a null review and an empty review. -/
def dfNullEmpty : DF :=
  { cols := ["review", "rating", "date", "bank", "source"],
    rows := [
      [("review", Val.null), ("rating", Val.num 3),
       ("date", Val.str "2024-01-01"), ("bank", Val.str "CBE"),
       ("source", Val.str "google_play")],
      [("review", Val.str ""), ("rating", Val.num 5),
       ("date", Val.str "2024-01-02"), ("bank", Val.str "BOA"),
       ("source", Val.str "google_play")]] }

/-- A one-review sentiment-results dataframe for the topic stage. -/
def dfTopic1 : DF :=
  { cols := ["review", "bank", "rating"],
    rows := [[("review", Val.str "slow transfer"), ("bank", Val.str "CBE"),
      ("rating", Val.num 4)]] }

/-- Models the `pd.to_datetime`/`strftime('%Y-%m-%d')` round trip on the
date strings of the concrete examples here, which are already in
`YYYY-MM-DD` form: parsing succeeds and reproduces the string. -/
def dateNormSample : Val → Option String :=
  fun v => match v with
  | Val.str s => some s
  | _ => none

/-- A concrete raw dataframe: two reviews of the same bank whose texts
differ only in trailing whitespace, one with rating 7 and a missing
source. -/
def dfRawC5 : DF :=
  { cols := ["review_text", "rating", "date", "bank_name", "source"],
    rows := [
      [("review_text", Val.str "hi "), ("rating", Val.num 7),
       ("date", Val.str "2024-01-01"), ("bank_name", Val.str "CBE"),
       ("source", Val.null)],
      [("review_text", Val.str "hi"), ("rating", Val.num 2),
       ("date", Val.str "2024-01-01"), ("bank_name", Val.str "CBE"),
       ("source", Val.str "google_play")]] }

/-- The review cell is a non-empty string. -/
def reviewNonEmptyB (v : Val) : Bool :=
  match v with
  | Val.str s => s ≠ ""
  | _ => false

/-- The rating cell is numeric and lies in 1..5. -/
def ratingInRangeB (v : Val) : Bool :=
  match ratingNum v with
  | some q => 1 ≤ q ∧ q ≤ 5
  | none => false

/-- Claim C5 as stated, as a predicate on the written dataset: no two
distinct rows share the same (review, bank); every row has a non-empty
review, no missing field, and a rating in 1..5. -/
def claimC5Holds (df : DF) : Prop :=
  List.Pairwise (fun r1 r2 =>
    ¬(getV r1 "review" = getV r2 "review" ∧ getV r1 "bank" = getV r2 "bank")) df.rows ∧
  ∀ r ∈ df.rows,
    reviewNonEmptyB (getV r "review") = true ∧
    (∀ c ∈ df.cols, getV r c ≠ Val.null) ∧
    ratingInRangeB (getV r "rating") = true

/-!
## Helper lemmas about rows and dataframes
-/

theorem getV_setV_self (r : Row) (c : String) (v : Val) :
    getV (setV r c v) c = v := by
  induction r with
  | nil => simp [setV, getV, List.lookup_cons]
  | cons kv t ih =>
    obtain ⟨c0, v0⟩ := kv
    by_cases h : c0 = c
    · simp [setV, h, getV, List.lookup_cons]
    · simp only [setV, h, if_false, getV, List.lookup_cons,
        beq_false_of_ne (Ne.symm h)]
      exact ih

theorem getV_setV_ne (r : Row) (c c' : String) (v : Val) (h : c' ≠ c) :
    getV (setV r c v) c' = getV r c' := by
  induction r with
  | nil => simp [setV, getV, List.lookup_cons, beq_false_of_ne h]
  | cons kv t ih =>
    obtain ⟨c0, v0⟩ := kv
    by_cases h0 : c0 = c
    · subst h0
      simp [setV, getV, List.lookup_cons, beq_false_of_ne h]
    · by_cases h1 : c' = c0
      · simp [setV, h0, getV, List.lookup_cons, h1]
      · simp only [setV, h0, if_false, getV, List.lookup_cons,
          beq_false_of_ne h1]
        exact ih

theorem getV_delV_ne (r : Row) (c c' : String) (h : c' ≠ c) :
    getV (delV r c) c' = getV r c' := by
  induction r with
  | nil => simp [delV, getV]
  | cons kv t ih =>
    obtain ⟨c0, v0⟩ := kv
    by_cases h0 : c0 = c
    · subst h0
      have hne : ¬(c0, v0).1 ≠ c0 := by simp
      simp only [delV, List.filter_cons, decide_eq_true_eq]
      rw [if_neg (by simp)]
      simp only [getV, List.lookup_cons, beq_false_of_ne h]
      simpa [delV, getV] using ih
    · simp only [delV, List.filter_cons]
      rw [if_pos (by simpa using h0)]
      by_cases h1 : c' = c0
      · simp [getV, List.lookup_cons, h1]
      · simp only [getV, List.lookup_cons, beq_false_of_ne h1]
        simpa [delV, getV] using ih

theorem getV_setV (r : Row) (c c' : String) (v : Val) :
    getV (setV r c v) c' = if c' = c then v else getV r c' := by
  by_cases h : c' = c
  · subst h
    simp [getV_setV_self]
  · simp [h, getV_setV_ne r c c' v h]

theorem getV_delV (r : Row) (c c' : String) :
    getV (delV r c) c' = if c' = c then Val.null else getV r c' := by
  by_cases h : c' = c
  · subst h
    simp only [if_pos rfl]
    induction r with
    | nil => simp [delV, getV]
    | cons kv t ih =>
      obtain ⟨c0, v0⟩ := kv
      by_cases h0 : c0 = c'
      · subst h0
        simp only [delV, List.filter_cons]
        rw [if_neg (by simp)]
        simpa [delV] using ih
      · simp only [delV, List.filter_cons]
        rw [if_pos (by simpa using h0)]
        simp only [getV, List.lookup_cons, beq_false_of_ne (fun e => h0 e.symm)]
        simpa [delV] using ih
  · simp [h, getV_delV_ne r c c' h]

theorem setCol_rows_get (df : DF) (c : String) (f : Row → Val) (i : ℕ) :
    (setCol df c f).rows[i]? = (df.rows[i]?).map (fun r => setV r c (f r)) := by
  simp [setCol]

/-!
## C3: the master pipeline runs its modules in a fixed order
-/

/-- C3: every run of `run_task2_analysis.main` executes the modules in
the fixed order sentiment, topics, visualizations, report (the executed
list is one of the four prefixes of that order); topic modeling runs
only when sentiment analysis returned without raising; a sentiment or
topic-modeling failure exits with status 1; and once sentiment and topic
modeling succeed both the visualization and the report module are run —
regardless of whether the visualization module fails — with a normal
exit. -/
theorem C3_theorem (prereq : Bool) (ok : Mod → Bool) :
    ((task2Main prereq ok).executed = [] ∨
     (task2Main prereq ok).executed = [Mod.sentiment] ∨
     (task2Main prereq ok).executed = [Mod.sentiment, Mod.topics] ∨
     (task2Main prereq ok).executed = [Mod.sentiment, Mod.topics, Mod.viz, Mod.report]) ∧
    (Mod.topics ∈ (task2Main prereq ok).executed → ok Mod.sentiment = true) ∧
    (prereq = true → ok Mod.sentiment = false → (task2Main prereq ok).exitCode = some 1) ∧
    (prereq = true → ok Mod.sentiment = true → ok Mod.topics = false →
      (task2Main prereq ok).exitCode = some 1) ∧
    (prereq = true → ok Mod.sentiment = true → ok Mod.topics = true →
      Mod.report ∈ (task2Main prereq ok).executed ∧
      Mod.viz ∈ (task2Main prereq ok).executed ∧
      (task2Main prereq ok).exitCode = none) := by
  cases prereq <;>
    rcases h1 : ok Mod.sentiment <;>
    rcases h2 : ok Mod.topics <;>
    simp [task2Main, h1, h2]

/-- Witness for C3 at a concrete input: prerequisites met, only the
visualization module raises; the report module still runs and the
pipeline ends with a normal exit. -/
theorem C3_witness :
    Mod.report ∈ (task2Main true okSample).executed ∧
    (task2Main true okSample).exitCode = none := by
  have h := (C3_theorem true okSample).2.2.2.2 rfl (by decide) (by decide)
  exact ⟨h.1, h.2.2⟩

/-!
## C6: the scraping loop requests at most 200 reviews per call,
terminates, and never exceeds the target
-/

theorem scrapeLoop_bounds (api : ℕ → ℕ → ApiResp) (target : ℕ) :
    ∀ acc i,
      (∀ req ∈ (scrapeLoop api target acc i).2, req ≤ 200) ∧
      ((∀ j req batch tok, api j req = ApiResp.ok batch tok → batch.length ≤ req) →
        acc.length ≤ target → (scrapeLoop api target acc i).1.length ≤ target) ∧
      (scrapeLoop api target acc i).2.length ≤ target - acc.length + 1 := by
  intro acc i
  induction acc, i using scrapeLoop.induct api target with
  | case1 acc i hlt req hapi =>
    rw [scrapeLoop, dif_pos hlt]
    simp only [hapi]
    refine ⟨by simp [req, Nat.min_le_left], fun _ hacc => hacc, by simp⟩
  | case2 acc i hlt req batch tok hapi hb =>
    rw [scrapeLoop, dif_pos hlt]
    simp only [hapi, dif_pos hb]
    refine ⟨by simp [req, Nat.min_le_left], fun _ hacc => hacc, by simp⟩
  | case3 acc i hlt req batch hb hapi =>
    rw [scrapeLoop, dif_pos hlt]
    simp only [hapi, dif_neg hb]
    refine ⟨by simp [req, Nat.min_le_left], fun hon hacc => ?_, by simp⟩
    have hlen := hon i _ _ _ hapi
    simp only [List.length_append]
    simp only [req] at hlen
    omega
  | case4 acc i hlt req batch hb val hapi ih =>
    rw [scrapeLoop, dif_pos hlt]
    simp only [hapi, dif_neg hb]
    have hbpos : 0 < batch.length := List.length_pos.mpr (by simpa using hb)
    refine ⟨?_, fun hon hacc => ?_, ?_⟩
    · intro r hr
      simp only [List.mem_cons] at hr
      rcases hr with rfl | hr
      · exact Nat.min_le_left _ _
      · exact ih.1 r hr
    · by_cases hover : (acc ++ batch).length ≤ target
      · exact ih.2.1 hon hover
      · exfalso
        have hlen := hon i _ _ _ hapi
        simp only [req] at hlen
        simp only [List.length_append] at hover
        omega
    · have h2 := ih.2.2
      simp only [List.length_cons, List.length_append] at *
      omega
  | case5 acc i hlt =>
    rw [scrapeLoop, dif_neg hlt]
    exact ⟨by simp, fun _ hacc => hacc, by simp⟩

/-- C6: for every response behaviour of the Play-Store API and every
target count, `scrape_app_reviews` requests at most 200 reviews per
call, makes at most `target + 1` calls (so the loop terminates on every
response sequence — a raised call, an empty batch, a missing
continuation token, or reaching the target all stop it), and — given
that the API returns at most as many reviews as requested — never
collects more than the target. -/
theorem C6_theorem (api : ℕ → ℕ → ApiResp) (target : ℕ)
    (hon : ∀ j req batch tok, api j req = ApiResp.ok batch tok → batch.length ≤ req) :
    (∀ req ∈ (scrapeAppReviews api target).2, req ≤ 200) ∧
    (scrapeAppReviews api target).1.length ≤ target ∧
    (scrapeAppReviews api target).2.length ≤ target + 1 := by
  have h := scrapeLoop_bounds api target [] 0
  exact ⟨h.1, h.2.1 hon (by simp), by simpa using h.2.2⟩

/-- Witness for C6 at a concrete input: scraping with target 7 against
`apiSample` requests at most 200 per call, collects at most 7 reviews,
and makes at most 8 calls. -/
theorem C6_witness :
    (∀ req ∈ (scrapeAppReviews apiSample 7).2, req ≤ 200) ∧
    (scrapeAppReviews apiSample 7).1.length ≤ 7 ∧
    (scrapeAppReviews apiSample 7).2.length ≤ 8 :=
  C6_theorem apiSample 7
    (fun j req batch tok h => by
      simp only [apiSample, ApiResp.ok.injEq] at h
      simp [← h.1, Nat.min_le_left])

/-!
## C7: database errors roll back, success commits exactly once
-/

theorem insertBanksGo_error (err : ℕ → Bool) (ids : Val → ℤ) :
    ∀ banks st i mapping,
      (insertBanksGo err ids banks st i mapping).2.2 = Except.error () →
        (insertBanksGo err ids banks st i mapping).1.committed = st.committed ∧
        (insertBanksGo err ids banks st i mapping).1.pending = [] ∧
        (insertBanksGo err ids banks st i mapping).2.1.count Ev.rollback = 1 ∧
        (insertBanksGo err ids banks st i mapping).2.1.count Ev.commit = 0 := by
  intro banks
  induction banks with
  | nil =>
    intro st i mapping h
    simp [insertBanksGo] at h
  | cons b rest ih =>
    intro st i mapping h
    by_cases he : err i
    · simp [insertBanksGo, he, List.count_cons]
    · simp only [insertBanksGo, he, if_false, Bool.false_eq_true] at h ⊢
      have := ih { committed := st.committed, pending := st.pending ++ [DbOp.insertBank b b] }
        (i + 1) (mapping ++ [(b, ids b)]) h
      simpa [List.count_cons] using this

theorem insertBanksGo_ok (err : ℕ → Bool) (ids : Val → ℤ) :
    ∀ banks st i mapping m,
      (insertBanksGo err ids banks st i mapping).2.2 = Except.ok m →
        (insertBanksGo err ids banks st i mapping).2.1.count Ev.commit = 1 ∧
        (insertBanksGo err ids banks st i mapping).2.1.count Ev.rollback = 0 ∧
        (insertBanksGo err ids banks st i mapping).1.pending = [] := by
  intro banks
  induction banks with
  | nil =>
    intro st i mapping m _
    simp [insertBanksGo]
  | cons b rest ih =>
    intro st i mapping m h
    by_cases he : err i
    · simp [insertBanksGo, he] at h
    · simp only [insertBanksGo, he, if_false, Bool.false_eq_true] at h ⊢
      have := ih { committed := st.committed, pending := st.pending ++ [DbOp.insertBank b b] }
        (i + 1) (mapping ++ [(b, ids b)]) m h
      simpa [List.count_cons] using this

/-- C7: for `insert_banks` and `insert_reviews`, a database error makes
the operation roll back — the committed database state is exactly what
it was before the operation and the open transaction is emptied — and
re-raise the error; when no error occurs the operation commits exactly
once and never rolls back. -/
theorem C7_theorem (err : ℕ → Bool) (ids : Val → ℤ) (errR : Bool)
    (bm : List (Val × ℤ)) (parseD : Val → Option String) (nowDate : String)
    (df df2 : DF) (st st2 : PgState) :
    ((insertBanks err ids df st).2.2 = Except.error () →
      (insertBanks err ids df st).1.committed = st.committed ∧
      (insertBanks err ids df st).1.pending = [] ∧
      (insertBanks err ids df st).2.1.count Ev.rollback = 1 ∧
      (insertBanks err ids df st).2.1.count Ev.commit = 0) ∧
    (∀ m, (insertBanks err ids df st).2.2 = Except.ok m →
      (insertBanks err ids df st).2.1.count Ev.commit = 1 ∧
      (insertBanks err ids df st).2.1.count Ev.rollback = 0) ∧
    ((insertReviews errR bm parseD nowDate df2 st2).2.2 = Except.error () →
      (insertReviews errR bm parseD nowDate df2 st2).1.committed = st2.committed ∧
      (insertReviews errR bm parseD nowDate df2 st2).1.pending = [] ∧
      (insertReviews errR bm parseD nowDate df2 st2).2.1.count Ev.rollback = 1 ∧
      (insertReviews errR bm parseD nowDate df2 st2).2.1.count Ev.commit = 0) ∧
    (∀ n, (insertReviews errR bm parseD nowDate df2 st2).2.2 = Except.ok n →
      (insertReviews errR bm parseD nowDate df2 st2).2.1.count Ev.commit = 1 ∧
      (insertReviews errR bm parseD nowDate df2 st2).2.1.count Ev.rollback = 0) := by
  refine ⟨fun h => insertBanksGo_error err ids _ st 0 [] h,
    fun m h => ?_, fun h => ?_, fun n h => ?_⟩
  · have := insertBanksGo_ok err ids (uniqueBanks df) st 0 [] m h
    exact ⟨this.1, this.2.1⟩
  · cases errR <;> simp [insertReviews, List.count_cons] at h ⊢
  · cases errR <;> simp [insertReviews, List.count_cons] at h ⊢

/-- Witness for C7 at a concrete input: with one bank to insert and a
failing `execute`, `insert_banks` re-raises, leaves the committed state
empty, rolls back once and never commits. -/
theorem C7_witness :
    (insertBanks errAll (fun _ => 1) dfBank1 stEmpty).1.committed = stEmpty.committed ∧
    (insertBanks errAll (fun _ => 1) dfBank1 stEmpty).1.pending = [] ∧
    (insertBanks errAll (fun _ => 1) dfBank1 stEmpty).2.1.count Ev.rollback = 1 ∧
    (insertBanks errAll (fun _ => 1) dfBank1 stEmpty).2.1.count Ev.commit = 0 :=
  (C7_theorem errAll (fun _ => 1) false [] (fun _ => none) "2025-01-01"
    dfBank1 dfBank1 stEmpty stEmpty).1 rfl

/-!
## C9: review insertion skips unknown banks and substitutes the
current date for unparseable dates
-/

theorem prepReviewData_filter (bm : List (Val × ℤ)) (parseD : Val → Option String)
    (nowDate : String) :
    ∀ rows : List Row,
      (prepReviewData bm parseD nowDate rows).length =
        (rows.filter (fun r => (bm.lookup (getV r "bank")).isSome)).length := by
  intro rows
  induction rows with
  | nil => simp [prepReviewData]
  | cons r t ih =>
    simp only [prepReviewData, List.filterMap_cons, List.filter_cons] at ih ⊢
    rcases h : bm.lookup (getV r "bank") with _ | bid
    · simpa [h] using ih
    · simpa [h] using ih

/-- C9: during review preparation for database insertion, a review whose
bank is missing from the bank-id mapping contributes nothing (the
prepared data has exactly one tuple per review with a known bank, hence
at most one per input row), a review with a known bank whose date fails
to parse is prepared with the current date substituted, and a successful
`insert_reviews` reports exactly the prepared count — at most the number
of input rows. -/
theorem C9_theorem (bm : List (Val × ℤ)) (parseD : Val → Option String)
    (nowDate : String) (df : DF) (st : PgState) :
    (prepReviewData bm parseD nowDate df.rows).length ≤ df.rows.length ∧
    (prepReviewData bm parseD nowDate df.rows).length =
      (df.rows.filter (fun r => (bm.lookup (getV r "bank")).isSome)).length ∧
    (∀ r ∈ df.rows, ∀ bid, bm.lookup (getV r "bank") = some bid →
      parseD (getV r "date") = none →
      ({ bankId := bid, reviewText := getV r "review",
         rating := pyIntVal (getV r "rating"), reviewDate := nowDate,
         sentimentLabel := Val.null, sentimentScore := Val.null,
         source := getV r "source" } : ReviewTuple) ∈
        prepReviewData bm parseD nowDate df.rows) ∧
    (insertReviews false bm parseD nowDate df st).2.2 =
      Except.ok (prepReviewData bm parseD nowDate df.rows).length := by
  refine ⟨?_, prepReviewData_filter bm parseD nowDate df.rows, ?_, by simp [insertReviews]⟩
  · calc (prepReviewData bm parseD nowDate df.rows).length
        = (df.rows.filter (fun r => (bm.lookup (getV r "bank")).isSome)).length :=
          prepReviewData_filter bm parseD nowDate df.rows
      _ ≤ df.rows.length := List.length_filter_le _ _
  · intro r hr bid hbid hdate
    refine List.mem_filterMap.mpr ⟨r, hr, ?_⟩
    simp [hbid, hdate]

/-- Witness for C9 at a concrete input: of the two reviews only the one
with the known bank is prepared, it carries the substituted current
date, and `insert_reviews` reports one inserted row. -/
theorem C9_witness :
    (prepReviewData [(Val.str "CBE", 1)] parseDNone "2025-06-01" dfReviews2.rows).length ≤
      dfReviews2.rows.length ∧
    ({ bankId := 1, reviewText := Val.str "slow app", rating := 2,
       reviewDate := "2025-06-01", sentimentLabel := Val.null,
       sentimentScore := Val.null, source := Val.str "google_play" } : ReviewTuple) ∈
      prepReviewData [(Val.str "CBE", 1)] parseDNone "2025-06-01" dfReviews2.rows := by
  have h := C9_theorem [(Val.str "CBE", 1)] parseDNone "2025-06-01" dfReviews2 stEmpty
  refine ⟨h.1, ?_⟩
  have hm := h.2.2.1 dfReviews2.rows.head! (by simp [dfReviews2]) 1 (by decide) rfl
  simpa [dfReviews2, getV, pyIntVal] using hm

/-!
## C2: the LDA topic assignment is the dominant topic, -1 on an empty
distribution, and always lies in {-1, 0, 1, 2, 3, 4}
-/

theorem pyMaxBySnd_spec (h : ℕ × ℚ) (t : List (ℕ × ℚ)) :
    pyMaxBySnd h t ∈ h :: t ∧ ∀ q ∈ h :: t, q.2 ≤ (pyMaxBySnd h t).2 := by
  induction t generalizing h with
  | nil => simp [pyMaxBySnd]
  | cons x xs ih =>
    have step : pyMaxBySnd h (x :: xs) = pyMaxBySnd (if h.2 < x.2 then x else h) xs := rfl
    obtain ⟨hmem, hmax⟩ := ih (if h.2 < x.2 then x else h)
    have hhead : (if h.2 < x.2 then x else h) ∈ h :: x :: xs := by
      by_cases hc : h.2 < x.2 <;> simp [hc]
    constructor
    · rw [step]
      rcases List.mem_cons.mp hmem with he | hxs
      · rw [he]; exact hhead
      · exact List.mem_cons_of_mem _ (List.mem_cons_of_mem _ hxs)
    · intro q hq
      rw [step]
      have hbest : (if h.2 < x.2 then x else h).2 ≤ (pyMaxBySnd (if h.2 < x.2 then x else h) xs).2 :=
        hmax _ (List.mem_cons_self _ _)
      rcases List.mem_cons.mp hq with he | hq2
      · rw [he]
        by_cases hc : h.2 < x.2
        · exact le_trans (le_of_lt hc) (by simpa [hc] using hbest)
        · simpa [hc] using hbest
      · rcases List.mem_cons.mp hq2 with he | hq3
        · rw [he]
          by_cases hc : h.2 < x.2
          · simpa [hc] using hbest
          · exact le_trans (le_of_not_lt hc) (by simpa [hc] using hbest)
        · exact hmax q (List.mem_cons_of_mem _ hq3)

/-- C2: in the dataframe produced by `perform_lda_topic_modeling`, every
row's `lda_topic` value is the assignment computed from that document's
LDA topic distribution: `-1` when the distribution is empty, and
otherwise the id of a topic whose probability is maximal in the
distribution; when every topic id the model can emit is below the topic
count 5, every stored assignment lies in {-1, 0, 1, 2, 3, 4}. -/
theorem C2_theorem (docTopics : List String → List (ℕ × ℚ)) (df : DF)
    (hids : ∀ toks, ∀ kp ∈ docTopics toks, kp.1 < 5) :
    ∀ r ∈ (performLdaTopicModeling docTopics df).rows,
      ∃ r0 ∈ df.rows,
        getV r "lda_topic" =
          Val.int (ldaAssignTopic (docTopics (valTokens (getV r0 "tokens_with_phrases")))) ∧
        (docTopics (valTokens (getV r0 "tokens_with_phrases")) = [] →
          getV r "lda_topic" = Val.int (-1)) ∧
        (docTopics (valTokens (getV r0 "tokens_with_phrases")) ≠ [] →
          ∃ kp ∈ docTopics (valTokens (getV r0 "tokens_with_phrases")),
            getV r "lda_topic" = Val.int (kp.1 : ℤ) ∧
            ∀ q ∈ docTopics (valTokens (getV r0 "tokens_with_phrases")), q.2 ≤ kp.2) ∧
        getV r "lda_topic" ∈
          [Val.int (-1), Val.int 0, Val.int 1, Val.int 2, Val.int 3, Val.int 4] := by
  intro r hr
  simp only [performLdaTopicModeling, setCol, List.mem_map] at hr
  obtain ⟨r0, hr0, rfl⟩ := hr
  refine ⟨r0, hr0, getV_setV_self _ _ _, ?_, ?_, ?_⟩
  · intro hnil
    rw [getV_setV_self, hnil]
    rfl
  · intro hne
    rcases hd : docTopics (valTokens (getV r0 "tokens_with_phrases")) with _ | ⟨h, t⟩
    · exact absurd hd hne
    · obtain ⟨hmem, hmax⟩ := pyMaxBySnd_spec h t
      refine ⟨pyMaxBySnd h t, hmem, ?_, hmax⟩
      rw [getV_setV_self]
      rfl
  · rw [getV_setV_self]
    rcases hd : docTopics (valTokens (getV r0 "tokens_with_phrases")) with _ | ⟨h, t⟩
    · simp [ldaAssignTopic]
    · obtain ⟨hmem, _⟩ := pyMaxBySnd_spec h t
      have hlt : (pyMaxBySnd h t).1 < 5 := by
        have := hids (valTokens (getV r0 "tokens_with_phrases")) (pyMaxBySnd h t)
        rw [hd] at this
        exact this hmem
      have hca : (pyMaxBySnd h t).1 = 0 ∨ (pyMaxBySnd h t).1 = 1 ∨ (pyMaxBySnd h t).1 = 2 ∨
          (pyMaxBySnd h t).1 = 3 ∨ (pyMaxBySnd h t).1 = 4 := by omega
      rcases hca with he | he | he | he | he <;>
        rw [show ldaAssignTopic (h :: t) = ((pyMaxBySnd h t).1 : ℤ) from rfl, he] <;> decide

/-- Witness for C2 at a concrete input: with the sample distribution the
stored assignment is topic 3 — the first topic of maximal weight 4 —
and it lies in {-1, ..., 4}. -/
theorem C2_witness :
    ∃ r0 ∈ dfTokens1.rows,
      getV [("tokens_with_phrases", Val.strList ["slow"]), ("lda_topic", Val.int 3)]
          "lda_topic" =
        Val.int (ldaAssignTopic (docTopicsSample (valTokens (getV r0 "tokens_with_phrases")))) ∧
      (docTopicsSample (valTokens (getV r0 "tokens_with_phrases")) = [] →
        getV [("tokens_with_phrases", Val.strList ["slow"]), ("lda_topic", Val.int 3)]
          "lda_topic" = Val.int (-1)) ∧
      (docTopicsSample (valTokens (getV r0 "tokens_with_phrases")) ≠ [] →
        ∃ kp ∈ docTopicsSample (valTokens (getV r0 "tokens_with_phrases")),
          getV [("tokens_with_phrases", Val.strList ["slow"]), ("lda_topic", Val.int 3)]
            "lda_topic" = Val.int (kp.1 : ℤ) ∧
          ∀ q ∈ docTopicsSample (valTokens (getV r0 "tokens_with_phrases")), q.2 ≤ kp.2) ∧
      getV [("tokens_with_phrases", Val.strList ["slow"]), ("lda_topic", Val.int 3)]
          "lda_topic" ∈
        [Val.int (-1), Val.int 0, Val.int 1, Val.int 2, Val.int 3, Val.int 4] := by
  have h := C2_theorem docTopicsSample dfTokens1
    (by intro toks kp hkp; simp [docTopicsSample] at hkp; rcases hkp with he | he | he <;>
      simp [he])
  exact h [("tokens_with_phrases", Val.strList ["slow"]), ("lda_topic", Val.int 3)]
    (by
      simp only [performLdaTopicModeling, setCol, dfTokens1, List.map_cons, List.map_nil]
      exact List.mem_singleton.mpr (by rfl))

/-!
## C4 and C8: the sentiment stage
-/

theorem setCol_self_mem (df : DF) (c : String) (f : Row → Val) :
    c ∈ (setCol df c f).cols := by
  by_cases h : c ∈ df.cols <;> simp [setCol, h]

theorem setCol_mem_of (df : DF) (c' : String) (f : Row → Val) {c : String}
    (h : c ∈ df.cols) : c ∈ (setCol df c' f).cols := by
  by_cases h' : c' ∈ df.cols <;> simp [setCol, h', h]

/-- C4: in the dataframe the sentiment stage writes, every row whose
review text is null or the empty string carries the neutral score 0.0
from each of the three methods — VADER compound, TextBlob polarity and
subjectivity, and Afinn — rather than an error. -/
theorem C4_theorem (analyzer : String → ℚ) (blob : String → ℚ × ℚ) (afinn : String → ℚ)
    (monthOf : Val → Val) (df : DF) :
    ∀ r ∈ (sentimentMain analyzer blob afinn monthOf df).rows,
      (getV r "review" = Val.null ∨ getV r "review" = Val.str "") →
      getV r "vader_compound" = Val.num 0 ∧
      getV r "textblob_polarity" = Val.num 0 ∧
      getV r "textblob_subjectivity" = Val.num 0 ∧
      getV r "afinn_score" = Val.num 0 := by
  intro r hr hrev
  have hm : "month" ∈ (generateSummaryStatistics (computeAggregatedInsights monthOf
      (applyAfinnSentiment afinn (applyTextblobSentiment blob
        (applyVaderSentiment analyzer df))))).cols :=
    setCol_mem_of _ _ _ (setCol_self_mem _ _ _)
  unfold sentimentMain saveResults at hr
  rw [if_pos hm] at hr
  obtain ⟨r6, hr6, rfl⟩ := List.mem_map.mp hr
  obtain ⟨r5, hr5, rfl⟩ := List.mem_map.mp hr6
  obtain ⟨r4, hr4, rfl⟩ := List.mem_map.mp hr5
  obtain ⟨r3, hr3, rfl⟩ := List.mem_map.mp hr4
  obtain ⟨r2, hr2, rfl⟩ := List.mem_map.mp hr3
  obtain ⟨r1, hr1, rfl⟩ := List.mem_map.mp hr2
  obtain ⟨r0, hr0, rfl⟩ := List.mem_map.mp hr1
  simp [getV_delV, getV_setV] at hrev ⊢
  rcases hrev with h | h <;>
    simp [getVaderScores, getTextblobScores, getAfinnScore, h]

/-- Witness for C4 at a concrete input: the written dataframe has a row
(the image of the null-review input row) holding 0.0 in all four score
columns. -/
theorem C4_witness :
    ∃ r ∈ (sentimentMain (fun _ => 1) (fun _ => (1, 1)) (fun _ => 1)
        (fun _ => Val.str "2024-01") dfNullEmpty).rows,
      getV r "vader_compound" = Val.num 0 ∧
      getV r "textblob_polarity" = Val.num 0 ∧
      getV r "textblob_subjectivity" = Val.num 0 ∧
      getV r "afinn_score" = Val.num 0 := by
  have hm : "month" ∈ (generateSummaryStatistics (computeAggregatedInsights
      (fun _ => Val.str "2024-01") (applyAfinnSentiment (fun _ => 1)
        (applyTextblobSentiment (fun _ => (1, 1))
          (applyVaderSentiment (fun _ => 1) dfNullEmpty))))).cols :=
    setCol_mem_of _ _ _ (setCol_self_mem _ _ _)
  have h0 : ([("review", Val.null), ("rating", Val.num 3), ("date", Val.str "2024-01-01"),
      ("bank", Val.str "CBE"), ("source", Val.str "google_play")] : Row) ∈
      dfNullEmpty.rows := by
    simp [dfNullEmpty]
  have h1 := List.mem_map_of_mem
    (fun r => setV r "vader_compound" (Val.num (getVaderScores (fun _ => 1) (getV r "review")))) h0
  have h2 := List.mem_map_of_mem
    (fun r => setV r "textblob_polarity"
      (Val.num (getTextblobScores (fun _ => (1, 1)) (getV r "review")).1)) h1
  have h3 := List.mem_map_of_mem
    (fun r => setV r "textblob_subjectivity"
      (Val.num (getTextblobScores (fun _ => (1, 1)) (getV r "review")).2)) h2
  have h4 := List.mem_map_of_mem
    (fun r => setV r "afinn_score" (Val.num (getAfinnScore (fun _ => 1) (getV r "review")))) h3
  have h5 := List.mem_map_of_mem
    (fun r => setV r "month" ((fun _ => Val.str "2024-01") (getV r "date"))) h4
  have h6 := List.mem_map_of_mem
    (fun r => setV r "sentiment_category" (sentimentCategoryOf (getV r "vader_compound"))) h5
  have h7 := List.mem_map_of_mem (fun r => delV r "month") h6
  exact ⟨_, h7, C4_theorem (fun _ => 1) (fun _ => (1, 1)) (fun _ => 1)
    (fun _ => Val.str "2024-01") dfNullEmpty _ h7 (Or.inl rfl)⟩

/-- C8: the sentiment stage neither removes nor reorders rows — the
written dataframe has one row per input row, at the same index, with the
review, rating, date, bank and source values unchanged — and its column
list is exactly the input columns followed by `vader_compound`,
`textblob_polarity`, `textblob_subjectivity`, `afinn_score` and
`sentiment_category`; the temporary `month` column is dropped before
saving. -/
theorem C8_theorem (analyzer : String → ℚ) (blob : String → ℚ × ℚ) (afinn : String → ℚ)
    (monthOf : Val → Val) (df : DF)
    (h1 : "vader_compound" ∉ df.cols) (h2 : "textblob_polarity" ∉ df.cols)
    (h3 : "textblob_subjectivity" ∉ df.cols) (h4 : "afinn_score" ∉ df.cols)
    (h5 : "sentiment_category" ∉ df.cols) (h6 : "month" ∉ df.cols) :
    (sentimentMain analyzer blob afinn monthOf df).cols =
      df.cols ++ ["vader_compound", "textblob_polarity", "textblob_subjectivity",
        "afinn_score", "sentiment_category"] ∧
    (sentimentMain analyzer blob afinn monthOf df).rows.length = df.rows.length ∧
    (∀ i : ℕ, ∀ r0, df.rows[i]? = some r0 →
      ∃ r, (sentimentMain analyzer blob afinn monthOf df).rows[i]? = some r ∧
        ∀ c ∈ (["review", "rating", "date", "bank", "source"] : List String),
          getV r c = getV r0 c) := by
  have hm : "month" ∈ (generateSummaryStatistics (computeAggregatedInsights monthOf
      (applyAfinnSentiment afinn (applyTextblobSentiment blob
        (applyVaderSentiment analyzer df))))).cols :=
    setCol_mem_of _ _ _ (setCol_self_mem _ _ _)
  have hc1 : (applyVaderSentiment analyzer df).cols = df.cols ++ ["vader_compound"] := by
    simp [applyVaderSentiment, setCol, h1]
  have hc2 : (applyTextblobSentiment blob (applyVaderSentiment analyzer df)).cols =
      df.cols ++ ["vader_compound", "textblob_polarity", "textblob_subjectivity"] := by
    simp [applyTextblobSentiment, setCol, hc1, h2, h3]
  have hc3 : (applyAfinnSentiment afinn (applyTextblobSentiment blob
      (applyVaderSentiment analyzer df))).cols =
      df.cols ++ ["vader_compound", "textblob_polarity", "textblob_subjectivity",
        "afinn_score"] := by
    simp [applyAfinnSentiment, setCol, hc2, h4]
  have hc4 : (computeAggregatedInsights monthOf (applyAfinnSentiment afinn
      (applyTextblobSentiment blob (applyVaderSentiment analyzer df)))).cols =
      df.cols ++ ["vader_compound", "textblob_polarity", "textblob_subjectivity",
        "afinn_score", "month"] := by
    simp [computeAggregatedInsights, setCol, hc3, h6]
  have hc5 : (generateSummaryStatistics (computeAggregatedInsights monthOf
      (applyAfinnSentiment afinn (applyTextblobSentiment blob
        (applyVaderSentiment analyzer df))))).cols =
      df.cols ++ ["vader_compound", "textblob_polarity", "textblob_subjectivity",
        "afinn_score", "month", "sentiment_category"] := by
    simp [generateSummaryStatistics, setCol, hc4, h5]
  have hsave : sentimentMain analyzer blob afinn monthOf df =
      dropCol (generateSummaryStatistics (computeAggregatedInsights monthOf
        (applyAfinnSentiment afinn (applyTextblobSentiment blob
          (applyVaderSentiment analyzer df))))) "month" := by
    unfold sentimentMain saveResults
    rw [if_pos hm]
  have hbase : df.cols.filter (fun c0 => c0 ≠ "month") = df.cols :=
    List.filter_eq_self.mpr (fun a ha => by
      by_cases he : a = "month"
      · exact absurd (he ▸ ha) h6
      · simp [he])
  refine ⟨?_, ?_, ?_⟩
  · rw [hsave]
    show (generateSummaryStatistics (computeAggregatedInsights monthOf
        (applyAfinnSentiment afinn (applyTextblobSentiment blob
          (applyVaderSentiment analyzer df))))).cols.filter (fun c0 => c0 ≠ "month") = _
    rw [hc5, List.filter_append, hbase]
    simp
  · rw [hsave]
    show ((generateSummaryStatistics (computeAggregatedInsights monthOf
        (applyAfinnSentiment afinn (applyTextblobSentiment blob
          (applyVaderSentiment analyzer df))))).rows.map (fun r => delV r "month")).length = _
    simp [generateSummaryStatistics, computeAggregatedInsights, applyAfinnSentiment,
      applyTextblobSentiment, applyVaderSentiment, setCol]
  · intro i r0 h0
    rw [hsave]
    show ∃ r, ((generateSummaryStatistics (computeAggregatedInsights monthOf
        (applyAfinnSentiment afinn (applyTextblobSentiment blob
          (applyVaderSentiment analyzer df))))).rows.map (fun r => delV r "month"))[i]? =
        some r ∧ _
    simp only [generateSummaryStatistics, computeAggregatedInsights, applyAfinnSentiment,
      applyTextblobSentiment, applyVaderSentiment, setCol, List.getElem?_map, h0,
      Option.map_some]
    refine ⟨_, rfl, ?_⟩
    intro c hc
    fin_cases hc <;>
      simp [getV_delV, getV_setV]

/-- Witness for C8 at a concrete input: on a two-row dataframe the
written dataframe keeps both rows in place with their base columns
unchanged and appends exactly the five sentiment columns. -/
theorem C8_witness :
    (sentimentMain (fun _ => 1) (fun _ => (1, 1)) (fun _ => 1)
        (fun _ => Val.str "2024-01") dfNullEmpty).cols =
      dfNullEmpty.cols ++ ["vader_compound", "textblob_polarity", "textblob_subjectivity",
        "afinn_score", "sentiment_category"] ∧
    (sentimentMain (fun _ => 1) (fun _ => (1, 1)) (fun _ => 1)
        (fun _ => Val.str "2024-01") dfNullEmpty).rows.length = dfNullEmpty.rows.length := by
  have h := C8_theorem (fun _ => 1) (fun _ => (1, 1)) (fun _ => 1)
    (fun _ => Val.str "2024-01") dfNullEmpty
    (by decide) (by decide) (by decide) (by decide) (by decide) (by decide)
  exact ⟨h.1, h.2.1⟩

/-!
## C10: the LDA assignment CSV drops only empty-token rows and carries
exactly the columns review, bank, rating, lda_topic
-/

theorem getV_selectRow (r : Row) (cs : List String) (c : String) (hc : c ∈ cs) :
    getV (cs.map (fun c0 => (c0, getV r c0))) c = getV r c := by
  induction cs with
  | nil => cases hc
  | cons c0 t ih =>
    by_cases h : c = c0
    · subst h
      simp [getV, List.lookup_cons]
    · simp only [List.map_cons, getV, List.lookup_cons, beq_false_of_ne h]
      exact ih ((List.mem_cons.mp hc).resolve_left h)

/-- C10: the dataframe written to `lda_topics.csv` carries exactly the
columns review, bank, rating, lda_topic; it has at most as many rows as
the sentiment-results input; and every row of it comes from an input
review whose preprocessed token list is non-empty, with the review, bank
and rating values of that input row unchanged. -/
theorem C10_theorem (lemmatize : String → String) (phraser : List String → List String)
    (docTopics : List String → List (ℕ × ℚ)) (df : DF) :
    (topicMain lemmatize phraser docTopics df).cols =
      ["review", "bank", "rating", "lda_topic"] ∧
    (topicMain lemmatize phraser docTopics df).rows.length ≤ df.rows.length ∧
    ∀ r ∈ (topicMain lemmatize phraser docTopics df).rows,
      ∃ r0 ∈ df.rows,
        cleanTextTM lemmatize (getV r0 "review") ≠ [] ∧
        getV r "review" = getV r0 "review" ∧
        getV r "bank" = getV r0 "bank" ∧
        getV r "rating" = getV r0 "rating" := by
  refine ⟨rfl, ?_, ?_⟩
  · simp only [topicMain, saveLdaAssignments, selectCols, performNmfProcessed,
      performLdaTopicModeling, extractTfidfProcessed, createBigramsTrigrams,
      preprocessText, filterRows, setCol, List.length_map]
    exact le_trans (List.length_filter_le _ _) (le_of_eq (List.length_map _ _))
  · intro r hr
    obtain ⟨r4, hr4, rfl⟩ := List.mem_map.mp hr
    obtain ⟨r3, hr3, rfl⟩ := List.mem_map.mp hr4
    obtain ⟨r2, hr2, rfl⟩ := List.mem_map.mp hr3
    obtain ⟨r1, hr1, rfl⟩ := List.mem_map.mp hr2
    obtain ⟨rb, hrb, rfl⟩ := List.mem_map.mp hr1
    obtain ⟨hmm, hp⟩ := List.mem_filter.mp hrb
    obtain ⟨r0, hr0, rfl⟩ := List.mem_map.mp hmm
    refine ⟨r0, hr0, ?_, ?_, ?_, ?_⟩
    · simp only [getV_setV_self, valTokens, gt_iff_lt, decide_eq_true_eq] at hp
      exact List.ne_nil_of_length_pos hp
    · rw [getV_selectRow _ _ _ (by decide)]
      simp [getV_setV]
    · rw [getV_selectRow _ _ _ (by decide)]
      simp [getV_setV]
    · rw [getV_selectRow _ _ _ (by decide)]
      simp [getV_setV]

/-- Witness for C10 at a concrete input: the single review survives
preprocessing (tokens `slow`, `transfer`), and the written row keeps its
review, bank and rating. -/
theorem C10_witness :
    ∃ r0 ∈ dfTopic1.rows,
      cleanTextTM wordnetLemmaSample (getV r0 "review") ≠ [] ∧
      getV [("review", Val.str "slow transfer"), ("bank", Val.str "CBE"),
          ("rating", Val.num 4), ("lda_topic", Val.int 3)] "review" = getV r0 "review" ∧
      getV [("review", Val.str "slow transfer"), ("bank", Val.str "CBE"),
          ("rating", Val.num 4), ("lda_topic", Val.int 3)] "bank" = getV r0 "bank" ∧
      getV [("review", Val.str "slow transfer"), ("bank", Val.str "CBE"),
          ("rating", Val.num 4), ("lda_topic", Val.int 3)] "rating" = getV r0 "rating" :=
  (C10_theorem wordnetLemmaSample (fun toks => toks) docTopicsSample dfTopic1).2.2
    [("review", Val.str "slow transfer"), ("bank", Val.str "CBE"),
     ("rating", Val.num 4), ("lda_topic", Val.int 3)]
    (by decide)

/-!
## C1: the preprocessing token filter runs before lemmatization
-/

theorem wsTokenizeF_spec :
    ∀ fuel l, ∀ w ∈ wsTokenizeF fuel l,
      w ≠ [] ∧ ∀ c ∈ w, c ∈ l ∧ pyIsSpace c = false := by
  intro fuel
  induction fuel with
  | zero =>
    intro l w hw
    simp [wsTokenizeF] at hw
  | succ n ih =>
    intro l w hw
    rcases l with _ | ⟨c, t⟩
    · simp [wsTokenizeF] at hw
    · by_cases hsp : pyIsSpace c
      · rw [wsTokenizeF, if_pos hsp] at hw
        obtain ⟨hne, hch⟩ := ih t w hw
        exact ⟨hne, fun c' hc' => ⟨List.mem_cons_of_mem _ (hch c' hc').1, (hch c' hc').2⟩⟩
      · rw [wsTokenizeF, if_neg hsp] at hw
        rcases List.mem_cons.mp hw with rfl | hw2
        · constructor
          · rw [List.takeWhile_cons, if_pos (by simp [hsp])]
            exact List.cons_ne_nil _ _
          · intro c' hc'
            have hmem : c' ∈ c :: t := (List.takeWhile_sublist _).subset hc'
            have hp := List.mem_takeWhile_imp hc'
            simp only [decide_eq_true_eq] at hp
            exact ⟨hmem, by simpa using hp⟩
        · obtain ⟨hne, hch⟩ := ih _ w hw2
          refine ⟨hne, fun c' hc' => ⟨?_, (hch c' hc').2⟩⟩
          exact (List.dropWhile_suffix _).sublist.subset (hch c' hc').1

theorem azSub_chars (l : List Char) :
    ∀ c ∈ azSub l, ('a' ≤ c ∧ c ≤ 'z') ∨ pyIsSpace c = true := by
  intro c hc
  obtain ⟨c0, _, rfl⟩ := List.mem_map.mp hc
  by_cases h : ('a' ≤ c0 ∧ c0 ≤ 'z') ∨ pyIsSpace c0
  · rw [if_pos h]
    simpa using h
  · rw [if_neg h]
    right
    rfl

theorem cleanBody_tokens (lemmatize : String → String) (s0 : String) :
    ∀ tok ∈ ((wsSplit (azSub (subEmails (subUrls (s0.data.map Char.toLower))))).filter
        (fun w => w ∉ stopWordsAll ∧ w.length ≥ 3)).map lemmatize,
      ∃ w, tok = lemmatize w ∧ azOnly w = true ∧ 3 ≤ w.length ∧ w ∉ stopWordsAll := by
  intro tok htok
  obtain ⟨w, hw, rfl⟩ := List.mem_map.mp htok
  obtain ⟨hws, hcond⟩ := List.mem_filter.mp hw
  simp only [ge_iff_le, decide_eq_true_eq] at hcond
  obtain ⟨hstop, hlen⟩ := hcond
  refine ⟨w, rfl, ?_, hlen, hstop⟩
  obtain ⟨wc, hwc, rfl⟩ := List.mem_map.mp hws
  have hspec := (wsTokenizeF_spec _ _ wc hwc).2
  simp only [azOnly, List.all_eq_true, decide_eq_true_eq]
  intro c hc
  obtain ⟨hmem, hnsp⟩ := hspec c hc
  rcases azSub_chars _ c hmem with haz | hsp
  · exact haz
  · rw [hnsp] at hsp
    cases hsp

theorem cleanTextTM_tokens (lemmatize : String → String) (text : Val) :
    ∀ tok ∈ cleanTextTM lemmatize text,
      ∃ w, tok = lemmatize w ∧ azOnly w = true ∧ 3 ≤ w.length ∧ w ∉ stopWordsAll := by
  cases text with
  | null => intro tok htok; simp [cleanTextTM] at htok
  | str s => exact cleanBody_tokens lemmatize s
  | num q => exact cleanBody_tokens lemmatize (toString q)
  | int z => exact cleanBody_tokens lemmatize (toString z)
  | strList l => exact cleanBody_tokens lemmatize ""

/-- C1, amended: every token produced by the preprocessing step of the
topic-modeling stage is the lemmatization of a word that consists only
of lowercase letters a-z, has length at least 3, and is not in the
combined NLTK-plus-custom stopword set; because the stopword and length
filter runs before lemmatization, the token itself need not satisfy the
filter (e.g. the non-stopword `banks` lemmatizes to the custom stopword
`bank`).  A null input yields the empty list, and every row whose token
list is empty is removed from the dataframe before any topic model is
fitted. -/
theorem C1_amended (lemmatize : String → String) (df : DF) :
    (∀ text : Val, ∀ tok ∈ cleanTextTM lemmatize text,
      ∃ w, tok = lemmatize w ∧ azOnly w = true ∧ 3 ≤ w.length ∧ w ∉ stopWordsAll) ∧
    cleanTextTM lemmatize Val.null = [] ∧
    (∀ r ∈ (preprocessText lemmatize df).rows, valTokens (getV r "tokens") ≠ []) := by
  refine ⟨cleanTextTM_tokens lemmatize, rfl, ?_⟩
  intro r hr
  obtain ⟨_, hp⟩ := List.mem_filter.mp hr
  simp only [gt_iff_lt, decide_eq_true_eq] at hp
  exact List.ne_nil_of_length_pos hp

/-- C1, counterexample to the claim as stated: on the input review
`banks`, the word `banks` passes the stopword filter (it is in neither
the NLTK list nor the custom set), and its WordNet lemma `bank` — the
returned token — IS in the combined stopword set, so the claim that no
returned token lies in the stopword set is false. -/
theorem C1_counterexample :
    cleanTextTM wordnetLemmaSample (Val.str "banks") = ["bank"] ∧
    ¬(∀ tok ∈ cleanTextTM wordnetLemmaSample (Val.str "banks"), tok ∉ stopWordsAll) := by
  refine ⟨by decide, fun h => ?_⟩
  exact h "bank" (by decide) (by decide)

/-- Witness for C1 (amended) at a concrete input: the token `bank`
returned for the review `banks` is the lemma of a filtered word, and the
concrete preprocessed row for the review `slow transfer` has a non-empty
token list. -/
theorem C1_witness :
    (∃ w, "bank" = wordnetLemmaSample w ∧ azOnly w = true ∧ 3 ≤ w.length ∧
      w ∉ stopWordsAll) ∧
    valTokens (getV [("review", Val.str "slow transfer"), ("bank", Val.str "CBE"),
      ("rating", Val.num 4), ("tokens", Val.strList ["slow", "transfer"])] "tokens") ≠ [] := by
  have h := C1_amended wordnetLemmaSample dfTopic1
  exact ⟨h.1 (Val.str "banks") "bank" (by decide), h.2.2 _ (by decide)⟩

/-!
## C5: properties of the cleaned dataset
-/

theorem keys_setV (r : Row) (c : String) (v : Val) (h : c ∈ r.map Prod.fst) :
    (setV r c v).map Prod.fst = r.map Prod.fst := by
  induction r with
  | nil => simp at h
  | cons kv t ih =>
    obtain ⟨c0, v0⟩ := kv
    by_cases h0 : c0 = c
    · subst h0
      simp [setV]
    · have h'' : c ∈ c0 :: t.map Prod.fst := by simpa only [List.map_cons] using h
      have h' : c ∈ t.map Prod.fst := by
        rcases List.mem_cons.mp h'' with he | ht
        · exact absurd he.symm h0
        · exact ht
      simp [setV, h0, ih h']

theorem dedupKeepFirst_subset :
    ∀ (seen : List (Val × Val)) (l : List Row), ∀ r ∈ dedupKeepFirst seen l, r ∈ l := by
  intro seen l
  induction l generalizing seen with
  | nil => simp [dedupKeepFirst]
  | cons x t ih =>
    intro r hr
    rw [dedupKeepFirst] at hr
    by_cases h : dupKey x ∈ seen
    · rw [if_pos h] at hr
      exact List.mem_cons_of_mem _ (ih _ r hr)
    · rw [if_neg h] at hr
      rcases List.mem_cons.mp hr with rfl | hr2
      · exact List.mem_cons_self _ _
      · exact List.mem_cons_of_mem _ (ih _ r hr2)

theorem handleMissing_shape (df : DF) :
    ∀ r ∈ (handleMissingValues df).rows,
      ∃ r0 ∈ df.rows, r = r0 ∨ ∃ v, r = setV r0 "rating" v := by
  intro r hr
  unfold handleMissingValues at hr
  obtain ⟨hr2, _⟩ := List.mem_filter.mp hr
  split at hr2
  · obtain ⟨r1, hr1, rfl⟩ := List.mem_map.mp hr2
    have hr0 : r1 ∈ df.rows := (List.mem_filter.mp hr1).1
    by_cases hn : getV r1 "rating" = Val.null
    · exact ⟨r1, hr0, Or.inr ⟨_, by rw [if_pos hn]⟩⟩
    · exact ⟨r1, hr0, Or.inl (by rw [if_neg hn])⟩
  · exact ⟨r, (List.mem_filter.mp hr2).1, Or.inl rfl⟩

theorem row_shape_of_keys (r : Row) (k1 k2 k3 k4 k5 : String)
    (h : r.map Prod.fst = [k1, k2, k3, k4, k5]) :
    ∃ v1 v2 v3 v4 v5, r = [(k1, v1), (k2, v2), (k3, v3), (k4, v4), (k5, v5)] := by
  rcases r with _ | ⟨⟨a1, v1⟩, _ | ⟨⟨a2, v2⟩, _ | ⟨⟨a3, v3⟩, _ | ⟨⟨a4, v4⟩,
    _ | ⟨⟨a5, v5⟩, rt⟩⟩⟩⟩⟩ <;> simp_all

/-- C5, amended: the cleaned dataset the script writes guarantees, for
every row, a non-empty string review and a present, normalized date;
duplicate removal is applied to the raw pre-cleaning text, ratings are
reported but not clamped by `validate_data`, and missing bank or source
values are not dropped, so duplicate (review, bank) pairs, out-of-range
ratings and missing fields can persist in the written file. -/
theorem C5_amended (dateNorm : Val → Option String) (df : DF)
    (hcols : df.cols = ["review_text", "rating", "date", "bank_name", "source"])
    (hkeys : ∀ r ∈ df.rows, r.map Prod.fst = df.cols) :
    ∀ r ∈ (cleanMain dateNorm df).rows,
      (∃ s, getV r "review" = Val.str s ∧ s ≠ "") ∧
      (∃ s, getV r "date" = Val.str s) := by
  intro r hr
  unfold cleanMain standardizeSchema at hr
  obtain ⟨rX, hrX, rfl⟩ := List.mem_map.mp hr
  obtain ⟨rY, hrY, rfl⟩ := List.mem_map.mp hrX
  obtain ⟨hmemY, hpY⟩ := List.mem_filter.mp hrY
  obtain ⟨rZ, hrZ, rfl⟩ := List.mem_map.mp hmemY
  obtain ⟨hmemZ, hpZ⟩ := List.mem_filter.mp hrZ
  obtain ⟨rW, hrW, rfl⟩ := List.mem_map.mp hmemZ
  have hkW : rW.map Prod.fst = ["review_text", "rating", "date", "bank_name", "source"] := by
    obtain ⟨r0, hr0, hcase⟩ := handleMissing_shape _ rW hrW
    have hk0 : r0.map Prod.fst = ["review_text", "rating", "date", "bank_name", "source"] := by
      rw [← hcols]
      exact hkeys r0 (dedupKeepFirst_subset [] _ r0 hr0)
    rcases hcase with rfl | ⟨v, rfl⟩
    · exact hk0
    · rw [keys_setV _ _ _ (by rw [hk0]; decide)]
      exact hk0
  obtain ⟨w1, w2, w3, w4, w5, rfl⟩ := row_shape_of_keys rW _ _ _ _ _ hkW
  have hlen : 0 < (cleanReviewText w1).length := of_decide_eq_true hpY
  have hdne : (match parseDateCR dateNorm w3 with
      | some s => Val.str s
      | none => Val.null) ≠ Val.null := of_decide_eq_true hpZ
  refine ⟨⟨cleanReviewText w1, rfl, ?_⟩, ?_⟩
  · intro he
    rw [he] at hlen
    simp at hlen
  · have h0 : getV (List.map (fun c => (c, getV (List.map
        (fun kv => (schemaRename kv.1, kv.2))
        (setV (setV [("review_text", w1), ("rating", w2), ("date", w3),
          ("bank_name", w4), ("source", w5)] "date"
          ((fun r => match parseDateCR dateNorm (getV r "date") with
            | some s => Val.str s
            | none => Val.null)
            [("review_text", w1), ("rating", w2), ("date", w3),
             ("bank_name", w4), ("source", w5)]))
          "review_text"
          ((fun r => Val.str (cleanReviewText (getV r "review_text")))
            (setV [("review_text", w1), ("rating", w2), ("date", w3),
              ("bank_name", w4), ("source", w5)] "date"
              ((fun r => match parseDateCR dateNorm (getV r "date") with
                | some s => Val.str s
                | none => Val.null)
                [("review_text", w1), ("rating", w2), ("date", w3),
                 ("bank_name", w4), ("source", w5)]))))) c))
        ["review", "rating", "date", "bank", "source"]) "date" =
        (match parseDateCR dateNorm w3 with
        | some s => Val.str s
        | none => Val.null) := rfl
    rcases hd : parseDateCR dateNorm w3 with _ | s
    · exfalso
      rw [hd] at hdne
      exact hdne rfl
    · exact ⟨s, by rw [h0, hd]⟩

/-- C5, counterexample to the claim as stated: on a concrete raw input
the cleaning script writes a dataset containing two distinct rows with
the same (review, bank) — the raw texts `hi ` and `hi` differ, so
duplicate removal keeps both, and both clean to `hi` — together with a
rating 7 outside 1..5 and a missing source value; `validate_data` only
reports these issues and the file is written anyway. -/
theorem C5_counterexample :
    (cleanMain dateNormSample dfRawC5).rows =
      [[("review", Val.str "hi"), ("rating", Val.num 7), ("date", Val.str "2024-01-01"),
        ("bank", Val.str "CBE"), ("source", Val.null)],
       [("review", Val.str "hi"), ("rating", Val.num 2), ("date", Val.str "2024-01-01"),
        ("bank", Val.str "CBE"), ("source", Val.str "google_play")]] ∧
    ¬claimC5Holds (cleanMain dateNormSample dfRawC5) := by
  constructor
  · decide
  · intro h
    have hrows := h.1
    rw [(by decide : (cleanMain dateNormSample dfRawC5).rows =
      [[("review", Val.str "hi"), ("rating", Val.num 7), ("date", Val.str "2024-01-01"),
        ("bank", Val.str "CBE"), ("source", Val.null)],
       [("review", Val.str "hi"), ("rating", Val.num 2), ("date", Val.str "2024-01-01"),
        ("bank", Val.str "CBE"), ("source", Val.str "google_play")]])] at hrows
    have := List.pairwise_cons.mp hrows
    exact this.1 _ (List.mem_singleton.mpr rfl) ⟨rfl, rfl⟩

/-- Witness for C5 (amended) at a concrete input: the first written row
has the non-empty review `hi` and the date `2024-01-01`. -/
theorem C5_witness :
    (∃ s, getV [("review", Val.str "hi"), ("rating", Val.num 7),
      ("date", Val.str "2024-01-01"), ("bank", Val.str "CBE"),
      ("source", Val.null)] "review" = Val.str s ∧ s ≠ "") ∧
    (∃ s, getV [("review", Val.str "hi"), ("rating", Val.num 7),
      ("date", Val.str "2024-01-01"), ("bank", Val.str "CBE"),
      ("source", Val.null)] "date" = Val.str s) :=
  C5_amended dateNormSample dfRawC5 rfl (by decide)
    [("review", Val.str "hi"), ("rating", Val.num 7), ("date", Val.str "2024-01-01"),
     ("bank", Val.str "CBE"), ("source", Val.null)]
    (by decide)

end Week2
